import Mathlib

/-!
Verification development for the vfspp virtual-filesystem library.

The definitions below are a shallow embedding of the C++ sources under
include/vfspp (MemoryFile.hpp, MemoryFileSystem.hpp, ZipFile.hpp,
ZipFileSystem.hpp, NativeFile.hpp, VirtualFileSystem.hpp, FileInfo.hpp).
Bytes are modelled as `Nat` values, byte buffers as `List Nat`, 64-bit
counters as `Nat` with an explicit `% 2 ^ 64` where C++ unsigned overflow
can occur, `std::unordered_map` as an association list (`List (key × value)`
looked up with `List.lookup`, matching first occurrence), and virtual paths
as the `AbsolutePath()` strings the maps are keyed by. Strings are modelled
as `List Char` so that all operations compute by structural recursion.
-/

set_option autoImplicit false

namespace Vfspp

/-- A `std::string` (paths are ASCII, so characters coincide with bytes). -/
abbrev Path := List Char

/-- `StringUtils::StartsWith` (StringUtils.hpp): the first
`starting.length` characters of `fullString` equal `starting`. -/
def strStartsWith : Path → Path → Bool
  | _, [] => true
  | [], _ :: _ => false
  | c :: cs, d :: ds => c == d && strStartsWith cs ds

/-- `StringUtils::EndsWith` (StringUtils.hpp): the last `ending.length`
characters of `fullString` equal `ending`. -/
def strEndsWith (fullString ending : Path) : Bool :=
  strStartsWith fullString.reverse ending.reverse

/-- `std::string::substr(n)` on a path. -/
def strDrop (s : Path) (n : Nat) : Path :=
  List.drop n s

/-- Length of a path. -/
def strLength (s : Path) : Nat :=
  List.length s

/-- `IFile::FileMode::Read` (= 1 << 0). -/
def readFlag : Nat := 1

/-- `IFile::FileMode::Write` (= 1 << 1). -/
def writeFlag : Nat := 2

/-- `IFile::FileMode::Append` (= 1 << 2). -/
def appendFlag : Nat := 4

/-- `IFile::FileMode::Truncate` (= 1 << 3). -/
def truncateFlag : Nat := 8

/-- Modelled from the spec: `IFile::ModeHasFlag` is used by the sources but its
definition is missing from the provided tree (the bundled IFile.h is an older
revision without the mode helpers). The sources test individual flags with
`(mode & flag) == flag` (e.g. NativeFile.hpp lines 250-262), which this
reproduces. -/
def modeHasFlag (mode flag : Nat) : Bool :=
  mode &&& flag == flag

/-- Modelled from the spec: `IFile::IsModeValid` is missing from the provided
tree; spec section 4.2 defines validity as: the mode must contain `Read` or
`Write`; `Append` requires `Write`; `Truncate` requires `Write`. -/
def isModeValid (mode : Nat) : Bool :=
  (modeHasFlag mode readFlag || modeHasFlag mode writeFlag) &&
  (!modeHasFlag mode appendFlag || modeHasFlag mode writeFlag) &&
  (!modeHasFlag mode truncateFlag || modeHasFlag mode writeFlag)

/-- `IFile::Origin` seek origins (`Begin`, `End`, `Set`; `Set` is the
"current position" origin, called `Cur` by the spec). -/
inductive Origin where
  | Begin
  | End
  | Set
  deriving DecidableEq

/-- `FileInfo::Configure` (FileInfo.hpp), projected to the `AbsolutePath()`
string it produces: the base path gets a trailing slash if missing, a
directory name gets a trailing slash, a leading slash of the name is
stripped, and the absolute path is the concatenation. -/
def fileInfoAbsolutePath (basePath fileName : Path) (isDir : Bool) : Path :=
  let bp := if strEndsWith basePath ['/'] then basePath else basePath ++ ['/']
  let n1 := if isDir && !strEndsWith fileName ['/'] then fileName ++ ['/'] else fileName
  let n2 := if strStartsWith n1 ['/'] then strDrop n1 1 else n1
  bp ++ n2

namespace MemoryFile

/-- State of a `MemoryFile` handle together with the byte content of its
backing `MemoryFileObject` (`m_Object->m_Data`): the copy-on-write clone in
`GetWritableData` is unobservable in this value-level model, so the object is
inlined as its published byte vector. -/
structure State where
  data : List Nat
  isOpened : Bool
  seekPos : Nat
  mode : Nat
  deriving DecidableEq

/-- `MemoryFile::SizeST`. -/
def SizeST (s : State) : Nat :=
  if s.isOpened then s.data.length else 0

/-- `MemoryFile::IsOpenedST`. -/
def IsOpenedST (s : State) : Bool :=
  s.isOpened

/-- `MemoryFile::TellST`. -/
def TellST (s : State) : Nat :=
  s.seekPos

/-- `MemoryFile::SeekST`: returns the new position and the updated state.
`m_SeekPos += offset` for `Origin::Set` is 64-bit unsigned addition, hence
the explicit `% 2 ^ 64`. -/
def SeekST (offset : Nat) (origin : Origin) (s : State) : Nat × State :=
  if !IsOpenedST s then (0, s)
  else
    let size := SizeST s
    let pos :=
      match origin with
      | Origin.Begin => offset
      | Origin.End => if offset < size then size - offset else 0
      | Origin.Set => (s.seekPos + offset) % 2 ^ 64
    let pos := min pos size
    (pos, { s with seekPos := pos })

/-- `MemoryFile::OpenST`: returns the success flag and the updated state. -/
def OpenST (mode : Nat) (s : State) : Bool × State :=
  if !isModeValid mode then (false, s)
  else if IsOpenedST s && s.mode == mode then
    (true, (SeekST 0 Origin.Begin s).2)
  else
    let s1 := { s with mode := mode, seekPos := 0 }
    let s2 :=
      if modeHasFlag mode appendFlag then
        let size := SizeST s1
        { s1 with seekPos := if size > 0 then size - 1 else 0 }
      else s1
    let s3 :=
      if modeHasFlag mode truncateFlag then { s2 with data := [] } else s2
    (true, { s3 with isOpened := true })

/-- `MemoryFile::CloseST`. -/
def CloseST (s : State) : State :=
  { s with isOpened := false, seekPos := 0, mode := readFlag }

/-- `MemoryFile::ReadST`: returns the bytes copied into the buffer of the caller
(the C++ return value is their count) and the updated state. -/
def ReadST (n : Nat) (s : State) : List Nat × State :=
  if !IsOpenedST s then ([], s)
  else if !modeHasFlag s.mode readFlag then ([], s)
  else
    let availableBytes := s.data.length
    if availableBytes ≤ s.seekPos then ([], s)
    else if n == 0 then ([], s)
    else
      let bytesLeft := availableBytes - s.seekPos
      let bytesToRead := min bytesLeft n
      if bytesToRead == 0 then ([], s)
      else
        ((s.data.drop s.seekPos).take bytesToRead,
         { s with seekPos := s.seekPos + bytesToRead })

/-- `MemoryFile::WriteST`: returns the byte count written and the updated
state; `std::vector::resize` extends with zero bytes before the `memcpy`. -/
def WriteST (buffer : List Nat) (s : State) : Nat × State :=
  if !IsOpenedST s then (0, s)
  else if !modeHasFlag s.mode writeFlag then (0, s)
  else
    let writeSize := buffer.length
    if writeSize == 0 then (0, s)
    else
      let data0 :=
        if s.seekPos + writeSize > s.data.length then
          s.data ++ List.replicate (s.seekPos + writeSize - s.data.length) 0
        else s.data
      let data1 := data0.take s.seekPos ++ buffer ++ data0.drop (s.seekPos + writeSize)
      (writeSize, { s with data := data1, seekPos := s.seekPos + writeSize })

end MemoryFile

/-- Update every binding of key `k` in an association list to value `v`
(the maps in the sources have unique keys, for which this is the plain
in-place update of the entry found by `find`). -/
def updateAssoc {α β : Type} [BEq α] (k : α) (v : β) (l : List (α × β)) : List (α × β) :=
  l.map (fun p => if p.1 == k then (k, v) else p)

namespace MemoryFileSystem

/-- State of a `MemoryFileSystem`: `m_Files` maps an absolute path to its
`FileEntry`, whose shared `MemoryFileObject` is represented by an
identifier into the `objects` heap (`std::make_shared` allocation is
modelled by consuming `nextId`); `m_FileList` keeps the `FileInfo`
records, projected to their absolute paths. The `OpenedHandles` weak-pointer
bookkeeping has no observable effect on the claims and is omitted. -/
structure State where
  objects : List (Nat × List Nat)
  files : List (Path × Nat)
  fileList : List Path
  nextId : Nat

/-- A `MemoryFilePtr` returned by `OpenFileST`: a `MemoryFile` whose shared
`MemoryFileObject` lives in the `objects` heap of the filesystem. -/
structure Handle where
  objId : Nat
  path : Path
  isOpened : Bool
  seekPos : Nat
  mode : Nat

/-- The `m_Files.try_emplace(absolutePath, filePath, make_shared<MemoryFileObject>())`
step of `MemoryFileSystem::OpenFileST`: returns the object id of the entry and
the possibly-extended filesystem. -/
def EnsureEntry (fs : State) (path : Path) : Nat × State :=
  match fs.files.lookup path with
  | some oid => (oid, fs)
  | none =>
      (fs.nextId,
       { fs with
           objects := fs.objects ++ [(fs.nextId, [])]
           files := fs.files ++ [(path, fs.nextId)]
           fileList := fs.fileList ++ [path]
           nextId := fs.nextId + 1 })

/-- The `MemoryFile::State` view of a handle: the bytes of the shared object
paired with the own fields of the handle. -/
def handleView (fs : State) (h : Handle) : MemoryFile.State :=
  { data := (fs.objects.lookup h.objId).getD []
    isOpened := h.isOpened
    seekPos := h.seekPos
    mode := h.mode }

/-- Write a `MemoryFile::State` back: the handle fields and, through the
shared pointer, the bytes of the object. -/
def handleCommit (fs : State) (h : Handle) (st : MemoryFile.State) : Handle × State :=
  ({ h with isOpened := st.isOpened, seekPos := st.seekPos, mode := st.mode },
   { fs with objects := updateAssoc h.objId st.data fs.objects })

/-- `MemoryFileSystem::OpenFileST`: ensure the entry exists (a fresh empty
object is created even for a pure read), construct a `MemoryFile` over the
shared object and `Open(mode)` it; on failure return null (the entry
remains). -/
def OpenFileST (fs : State) (path : Path) (mode : Nat) : Option Handle × State :=
  let (objId, fs1) := EnsureEntry fs path
  let st0 : MemoryFile.State :=
    { data := (fs1.objects.lookup objId).getD []
      isOpened := false
      seekPos := 0
      mode := readFlag }
  let (ok, st1) := MemoryFile.OpenST mode st0
  let (h, fs2) := handleCommit fs1 { objId := objId, path := path
                                     isOpened := false, seekPos := 0, mode := readFlag } st1
  if ok then (some h, fs2) else (none, fs2)

/-- `MemoryFileSystem::IsFileExistsST`. -/
def IsFileExistsST (fs : State) (path : Path) : Bool :=
  (fs.files.lookup path).isSome

/-- `MemoryFile::Write` on a handle, threading the shared object through the
filesystem heap. -/
def HandleWrite (fs : State) (h : Handle) (buffer : List Nat) : Nat × Handle × State :=
  let (n, st) := MemoryFile.WriteST buffer (handleView fs h)
  let (h1, fs1) := handleCommit fs h st
  (n, h1, fs1)

/-- `MemoryFile::Read` on a handle. -/
def HandleRead (fs : State) (h : Handle) (n : Nat) : List Nat × Handle × State :=
  let (bytes, st) := MemoryFile.ReadST n (handleView fs h)
  let (h1, fs1) := handleCommit fs h st
  (bytes, h1, fs1)

/-- `MemoryFile::Close` on a handle (`CloseST` touches no object data). -/
def HandleClose (fs : State) (h : Handle) : Handle × State :=
  handleCommit fs h (MemoryFile.CloseST (handleView fs h))

/-- Erase the map entry and the matching file-list records for `path`
(the `m_Files.erase` / `m_FileList.erase(remove_if ...)` pair used by
`CopyFileST` when overwriting). -/
def eraseEntry (fs : State) (path : Path) : State :=
  { fs with
      files := fs.files.filter (fun p => !(p.1 == path))
      fileList := fs.fileList.filter (fun p => !(p == path)) }

/-- `MemoryFileSystem::CopyFileST`. The line that would copy the source
bytes of the source object into the fresh destination object is commented out in the
source (`// TODO: fix copy`), so the destination is inserted with a fresh
empty `MemoryFileObject`. -/
def CopyFileST (fs : State) (srcPath dstPath : Path) (overwrite : Bool) : Bool × State :=
  match fs.files.lookup srcPath with
  | none => (false, fs)
  | some _ =>
      let destExists := (fs.files.lookup dstPath).isSome
      if destExists && !overwrite then (false, fs)
      else
        let fs1 := if destExists && overwrite then eraseEntry fs dstPath else fs
        let newId := fs1.nextId
        -- insert_or_assign: at this point dstPath is absent from the map, so
        -- the pair is inserted and the `inserted` flag is true, which pushes
        -- dstPath onto m_FileList.
        (true,
         { fs1 with
             objects := fs1.objects ++ [(newId, [])]
             files := fs1.files ++ [(dstPath, newId)]
             fileList := fs1.fileList ++ [dstPath]
             nextId := newId + 1 })

/-- Replace the bytes of heap object `oid` (the effect of a mutation made
through the shared `MemoryFileObject` of a handle). -/
def State.withObj (fs : State) (oid : Nat) (d : List Nat) : State :=
  { fs with objects := updateAssoc oid d fs.objects }

/-- Well-formedness of a filesystem state: heap identifiers are below the
allocation counter and the object of every file entry is present in the heap.
States reachable from the empty filesystem satisfy this. -/
def WF (fs : State) : Prop :=
  (∀ pr ∈ fs.objects, pr.1 < fs.nextId) ∧
  (∀ pr ∈ fs.files, (fs.objects.lookup pr.2).isSome = true)

instance (fs : State) : Decidable (WF fs) := by
  unfold WF; infer_instance

end MemoryFileSystem

namespace ZipFile

/-- State of a `ZipFile` handle: the central-directory entry id, the stored
uncompressed size (`m_Size`), the seek position, and whether the weak
reference `m_ZipArchive` is still live (`!m_ZipArchive.expired()`). The
uncompressed byte stream of the entry lives in the archive, so the read
operation receives it as an argument. -/
structure State where
  entryId : Nat
  size : Nat
  seekPos : Nat
  archiveAlive : Bool
  deriving DecidableEq

/-- `ZipFile::IsOpenedST`: the handle counts as opened while the archive
shared state is alive. -/
def IsOpenedST (h : State) : Bool :=
  h.archiveAlive

/-- `ZipFile::SizeST`. -/
def SizeST (h : State) : Nat :=
  if IsOpenedST h then h.size else 0

/-- `ZipFile::IsReadOnlyST`. -/
def IsReadOnlyST : Bool :=
  true

/-- `ZipFile::TellST`. -/
def TellST (h : State) : Nat :=
  h.seekPos

/-- `ZipFile::SeekST`: `m_SeekPos += offset` for `Origin::Set` is 64-bit
unsigned addition, hence the explicit `% 2 ^ 64`. -/
def SeekST (offset : Nat) (origin : Origin) (h : State) : Nat × State :=
  if !IsOpenedST h then (0, h)
  else
    let size := SizeST h
    let pos :=
      match origin with
      | Origin.Begin => offset
      | Origin.End => if offset ≤ size then size - offset else 0
      | Origin.Set => (h.seekPos + offset) % 2 ^ 64
    let pos := min pos size
    (pos, { h with seekPos := pos })

/-- `ZipFile::OpenST`. -/
def OpenST (mode : Nat) (h : State) : Bool × State :=
  if !isModeValid mode then (false, h)
  else if IsReadOnlyST && modeHasFlag mode writeFlag then (false, h)
  else if IsOpenedST h then (true, (SeekST 0 Origin.Begin h).2)
  else
    let h1 := { h with seekPos := 0 }
    if !h.archiveAlive then (false, h1) else (true, h1)

/-- `ZipFile::CloseST`: only the seek position is reset. -/
def CloseST (h : State) : State :=
  { h with seekPos := 0 }

/-- `ZipFile::ReadST`. `entryStream` is the uncompressed byte stream of the
entry held by the archive; `mz_zip_reader_extract_to_callback` feeds it in
order to `partialExtractCallback`, whose observable effect is to copy
`bytesToRead` bytes starting at offset `m_SeekPos` into the buffer (spec
section 4.5 treats the codec as a black box). -/
def ReadST (entryStream : List Nat) (n : Nat) (h : State) : List Nat × State :=
  if !IsOpenedST h then ([], h)
  else if h.size ≤ h.seekPos then ([], h)
  else if n == 0 then ([], h)
  else
    let bytesLeft := h.size - h.seekPos
    let bytesToRead := min bytesLeft n
    if bytesToRead == 0 then ([], h)
    else
      let copied := (entryStream.drop h.seekPos).take bytesToRead
      (copied, { h with seekPos := h.seekPos + copied.length })

/-- `ZipFile::WriteST`: the archive is read-only. -/
def WriteST (_buffer : List Nat) (h : State) : Nat × State :=
  (0, h)

end ZipFile

namespace ZipFileSystem

/-- A row of the `m_Files` table: the central-directory entry index and the
uncompressed size recorded by `BuildFilelist` (the `FileInfo` is the
absolute path). -/
structure Entry where
  entryId : Nat
  size : Nat
  deriving DecidableEq

/-- State of a `ZipFileSystem` after `Initialize`: the files table, the file
list (`FileInfo` records projected to absolute paths) and whether
`m_ZipArchive` is live. -/
structure State where
  files : List (Path × Entry)
  fileList : List Path
  archiveAlive : Bool

/-- One central-directory record as enumerated by miniz: its name, index,
uncompressed size, and whether `mz_zip_reader_file_stat` succeeds. -/
structure SrcEntry where
  name : Path
  index : Nat
  uncompSize : Nat
  statOk : Bool

/-- The loop body of `ZipFileSystem::BuildFilelist`: entries whose stat
fails are skipped (with a TODO to log); every other entry — with no test on
its name — is appended to the file list and emplaced into the files table
keyed by `FileInfo(BasePathST(), m_filename, false).AbsolutePath()`. -/
def BuildFilelistGo :
    List SrcEntry → List Path → List (Path × Entry) → List Path × List (Path × Entry)
  | [], fileList, files => (fileList, files)
  | e :: rest, fileList, files =>
      if !e.statOk then BuildFilelistGo rest fileList files
      else
        let ap := fileInfoAbsolutePath ['/'] e.name false
        let fileList1 := fileList ++ [ap]
        let files1 :=
          if (files.lookup ap).isSome then files
          else files ++ [(ap, { entryId := e.index, size := e.uncompSize })]
        BuildFilelistGo rest fileList1 files1

/-- `ZipFileSystem::BuildFilelist` over the central directory of the archive. -/
def BuildFilelist (entries : List SrcEntry) : List Path × List (Path × Entry) :=
  BuildFilelistGo entries [] []

/-- `ZipFileSystem::CreateFile`. -/
def CreateFile (fs : State) (_path : Path) : Bool × State :=
  (false, fs)

/-- `ZipFileSystem::RemoveFile`. -/
def RemoveFile (fs : State) (_path : Path) : Bool × State :=
  (false, fs)

/-- `ZipFileSystem::CopyFile`. -/
def CopyFile (fs : State) (_src _dest : Path) (_overwrite : Bool) : Bool × State :=
  (false, fs)

/-- `ZipFileSystem::RenameFile`. -/
def RenameFile (fs : State) (_src _dst : Path) : Bool × State :=
  (false, fs)

/-- `ZipFileSystem::IsFileExistsST`. -/
def IsFileExistsST (fs : State) (path : Path) : Bool :=
  (fs.files.lookup path).isSome

/-- `ZipFileSystem::OpenFileST`: only existing entries can be opened; the
`ZipFile` is constructed over the id and size of the entry with the archive
shared pointer. -/
def OpenFileST (fs : State) (path : Path) (mode : Nat) : Option ZipFile.State × State :=
  match fs.files.lookup path with
  | none => (none, fs)
  | some e =>
      let h0 : ZipFile.State :=
        { entryId := e.entryId, size := e.size, seekPos := 0
          archiveAlive := fs.archiveAlive }
      let (ok, h1) := ZipFile.OpenST mode h0
      if ok then (some h1, fs) else (none, fs)

end ZipFileSystem

namespace NativeFile

/-- The `std::fstream` behind a `NativeFile`, modelled by its observable
pieces: open flag, byte content, the joint get/put position, the count of
the last unformatted input operation (`gcount`, 0 on a freshly constructed
stream), and the fail state. -/
structure Stream where
  isOpen : Bool
  content : List Nat
  pos : Nat
  gcountVal : Nat
  failed : Bool
  deriving DecidableEq

/-- State of a `NativeFile` handle. -/
structure State where
  stream : Stream
  isReadOnly : Bool
  mode : Nat
  deriving DecidableEq

/-- `NativeFile::IsOpenedST` (`m_Stream.is_open()`). -/
def IsOpenedST (s : State) : Bool :=
  s.stream.isOpen

/-- `NativeFile::IsReadOnlyST`. -/
def IsReadOnlyST (s : State) : Bool :=
  s.isReadOnly

/-- `NativeFile::SizeST`: seek to the end, read the position, restore
(modelled by its result, the content length of the stream). -/
def SizeST (s : State) : Nat :=
  if IsOpenedST s then s.stream.content.length else 0

/-- `NativeFile::TellST`. -/
def TellST (s : State) : Nat :=
  s.stream.pos

/-- `NativeFile::CloseST`. -/
def CloseST (s : State) : State :=
  if IsOpenedST s then { s with stream := { s.stream with isOpen := false } } else s

/-- `NativeFile::ReadST`: reads `min(size, SizeST() - TellST())` bytes when
that is positive; `stream.read` sets `gcount` to the count extracted. -/
def ReadST (n : Nat) (s : State) : List Nat × State :=
  if !IsOpenedST s then ([], s)
  else if !modeHasFlag s.mode readFlag then ([], s)
  else
    let leftSize := SizeST s - TellST s
    let maxSize := min n leftSize
    if maxSize > 0 then
      ((s.stream.content.drop s.stream.pos).take maxSize,
       { s with stream := { s.stream with
           pos := s.stream.pos + maxSize, gcountVal := maxSize } })
    else ([], s)

/-- `NativeFile::WriteST`: after the guards, `m_Stream.write(buffer, size)`
writes the bytes at the current position, but the function returns
`m_Stream.gcount()` — the count of the last unformatted input operation,
which `write` does not touch. -/
def WriteST (buffer : List Nat) (s : State) : Nat × State :=
  if !IsOpenedST s || IsReadOnlyST s then (0, s)
  else if !modeHasFlag s.mode writeFlag then (0, s)
  else
    let st := s.stream
    let newContent := st.content.take st.pos ++ buffer ++ st.content.drop (st.pos + buffer.length)
    (st.gcountVal,
     { s with stream := { st with content := newContent, pos := st.pos + buffer.length } })

end NativeFile

namespace VirtualFileSystem

/-- The `IFileSystem` virtual interface as seen by `VirtualFileSystem`
(dynamic dispatch modelled by a record of functions over the backend state
type `β`; opening yields a handle of type `γ` and the possibly mutated
backend). -/
structure FSOps (β γ : Type) where
  isFileExists : β → Path → Bool
  openFile : β → Path → Nat → Option γ × β
  basePath : β → Path

/-- State of a `VirtualFileSystem`: `m_SortedAlias` (kept sorted by
descending length by `AddFileSystem`) and `m_FileSystems`, the map from an
alias to its mounted backend list (front = oldest = "main"). Backends are
the states in the table; distinct list entries are distinct backend
objects. -/
structure State (β : Type) where
  sortedAlias : List Path
  table : List (Path × List β)

/-- The inner backend loop of `VisitMountedFileSystems`, running over the
reversed (newest-first) backend list; the last element of the reversed list
is the front of the original list, for which `fs == filesystems.front()`
holds (`isMain`). The updated backend states of the callback are kept, as the
C++ callbacks mutate the backends through their shared pointers. -/
def visitRev {β ρ : Type} (callback : β → Bool → Option ρ × β) :
    List β → Option ρ × List β
  | [] => (none, [])
  | fs :: rest =>
      let isMain := rest.isEmpty
      match callback fs isMain with
      | (some r, fs1) => (some r, fs1 :: rest)
      | (none, fs1) =>
          let (r, rest1) := visitRev callback rest
          (r, fs1 :: rest1)

/-- The backend traversal of one alias: iterate the mounted list in reverse. -/
def visitBackends {β ρ : Type} (callback : β → Bool → Option ρ × β) (fss : List β) :
    Option ρ × List β :=
  let (r, revOut) := visitRev callback fss.reverse
  (r, revOut.reverse)

/-- The alias loop of `VisitMountedFileSystems`: skip aliases that do not
prefix the path, strip the alias to get the relative path, skip aliases
with an empty backend list, and return the first callback hit; backend
mutations are written back into the table. -/
def visitAliases {β ρ : Type} (callback : β → Path → Bool → Option ρ × β) (path : Path) :
    List Path → List (Path × List β) → Option ρ × List (Path × List β)
  | [], table => (none, table)
  | a :: rest, table =>
      if strStartsWith path a then
        let relativePath := strDrop path (strLength a)
        let fss := (table.lookup a).getD []
        if fss.isEmpty then visitAliases callback path rest table
        else
          match visitBackends (fun fs isMain => callback fs relativePath isMain) fss with
          | (some r, fss1) => (some r, updateAssoc a fss1 table)
          | (none, fss1) => visitAliases callback path rest (updateAssoc a fss1 table)
      else visitAliases callback path rest table

/-- The callback `OpenFile` hands to `VisitMountedFileSystems`: build the
real path `FileInfo(fs->BasePath(), relativePath, false)` and ask the
backend to open it when it reports the file exists **or** it is the main
(front) backend of its alias — the source places no condition on the
mode. -/
def openCallback {β γ : Type} (ops : FSOps β γ) (mode : Nat) :
    β → Path → Bool → Option γ × β :=
  fun fs relativePath isMain =>
    let realPath := fileInfoAbsolutePath (ops.basePath fs) relativePath false
    if ops.isFileExists fs realPath || isMain then
      ops.openFile fs realPath mode
    else (none, fs)

/-- `VirtualFileSystem::OpenFile`: visit the mounted filesystems with
`openCallback`; the first non-null handle is returned, else null. -/
def OpenFile {β γ : Type} (ops : FSOps β γ) (vfs : State β) (path : Path) (mode : Nat) :
    Option γ × State β :=
  let (r, table1) := visitAliases (openCallback ops mode) path vfs.sortedAlias vfs.table
  (r, { vfs with table := table1 })

end VirtualFileSystem

/-! Concrete states used to instantiate the theorems below. -/

/-- The bytes of `"hello"`. -/
def helloBytes : List Nat := [104, 101, 108, 108, 111]

/-- The path `"/m/a"`. -/
def pathMA : Path := ['/', 'm', '/', 'a']

/-- The path `"/m/b"`. -/
def pathMB : Path := ['/', 'm', '/', 'b']

/-- The path `"/p"`. -/
def pathP : Path := ['/', 'p']

/-- The root alias `"/"`. -/
def rootAlias : Path := ['/']

/-- A memory filesystem holding `"hello"` under `"/m/a"`. -/
def memFSHello : MemoryFileSystem.State :=
  { objects := [(0, helloBytes)], files := [(pathMA, 0)], fileList := [pathMA], nextId := 1 }

/-- A freshly initialized, empty memory filesystem. -/
def emptyMemFS : MemoryFileSystem.State :=
  { objects := [], files := [], fileList := [], nextId := 0 }

/-- The `IFileSystem` dispatch table of a `MemoryFileSystem`
(`BasePathST` returns `"/"`). -/
def memOps : VirtualFileSystem.FSOps MemoryFileSystem.State MemoryFileSystem.Handle :=
  { isFileExists := MemoryFileSystem.IsFileExistsST
    openFile := MemoryFileSystem.OpenFileST
    basePath := fun _ => rootAlias }

/-- A VFS with a single (hence main) empty memory backend mounted at `"/"`. -/
def vfsMemOnly : VirtualFileSystem.State MemoryFileSystem.State :=
  { sortedAlias := [rootAlias], table := [(rootAlias, [emptyMemFS])] }

/-- An initialized zip filesystem with no entries and a live archive. -/
def emptyZipFS : ZipFileSystem.State :=
  { files := [], fileList := [], archiveAlive := true }

/-- The `IFileSystem` dispatch table of a `ZipFileSystem`
(`BasePathST` returns `"/"`). -/
def zipOps : VirtualFileSystem.FSOps ZipFileSystem.State ZipFile.State :=
  { isFileExists := ZipFileSystem.IsFileExistsST
    openFile := ZipFileSystem.OpenFileST
    basePath := fun _ => rootAlias }

/-- A VFS with a single empty zip backend mounted at `"/"`. -/
def vfsZipOnly : VirtualFileSystem.State ZipFileSystem.State :=
  { sortedAlias := [rootAlias], table := [(rootAlias, [emptyZipFS])] }

/-- A `MemoryFile` over a 5-byte object, not yet opened. -/
def memFile5 : MemoryFile.State :=
  { data := [1, 2, 3, 4, 5], isOpened := false, seekPos := 0, mode := readFlag }

/-- An opened `MemoryFile` over a 5-byte object at position 1. -/
def memFile5Open : MemoryFile.State :=
  { data := [1, 2, 3, 4, 5], isOpened := true, seekPos := 1, mode := readFlag }

/-- A `ZipFile` handle over a 5-byte entry at position 2, archive alive. -/
def zipHandleLive : ZipFile.State :=
  { entryId := 0, size := 5, seekPos := 2, archiveAlive := true }

/-- A `ZipFile` handle whose archive has been shut down. -/
def zipHandleDead : ZipFile.State :=
  { entryId := 0, size := 5, seekPos := 2, archiveAlive := false }

/-- The uncompressed stream of the 5-byte zip entry. -/
def zipStream5 : List Nat := [9, 8, 7, 6, 5]

/-- A freshly opened writable `NativeFile` over an empty file: `gcount` of a
fresh stream is 0. -/
def freshWritableNative : NativeFile.State :=
  { stream := { isOpen := true, content := [], pos := 0, gcountVal := 0, failed := false }
    isReadOnly := false
    mode := writeFlag }

/-- The central directory of an archive holding the single directory marker
entry `"dir/"`. -/
def dirOnlyCentralDir : List ZipFileSystem.SrcEntry :=
  [{ name := ['d', 'i', 'r', '/'], index := 0, uncompSize := 0, statOk := true }]

/-- The round trip of spec section 8 on the memory backend: open `p` for
writing, write `B`, close the handle, re-open `p` for reading and read
`B.length` bytes back. -/
def RoundTrip (fs : MemoryFileSystem.State) (p : Path) (B : List Nat) (mw : Nat) :
    Option (List Nat) :=
  match MemoryFileSystem.OpenFileST fs p mw with
  | (none, _) => none
  | (some h, fs1) =>
      let (_, h1, fs2) := MemoryFileSystem.HandleWrite fs1 h B
      let (_, fs3) := MemoryFileSystem.HandleClose fs2 h1
      match MemoryFileSystem.OpenFileST fs3 p readFlag with
      | (none, _) => none
      | (some hr, fs4) => some (MemoryFileSystem.HandleRead fs4 hr B.length).1

end Vfspp

namespace Vfspp

/-! Association-list lemmas for the map model. -/

theorem lookup_append_some {α β : Type} [BEq α] {l1 : List (α × β)} {k : α} {v : β}
    (l2 : List (α × β)) (h : l1.lookup k = some v) : (l1 ++ l2).lookup k = some v := by
  induction l1 with
  | nil => simp [List.lookup] at h
  | cons p t ih =>
      rcases p with ⟨a, b⟩
      rw [List.cons_append]
      simp only [List.lookup] at h ⊢
      cases hk : (k == a) with
      | true => rw [hk] at h; simpa using h
      | false => rw [hk] at h; exact ih h

theorem lookup_append_none {α β : Type} [BEq α] {l1 : List (α × β)} {k : α}
    (l2 : List (α × β)) (h : l1.lookup k = none) : (l1 ++ l2).lookup k = l2.lookup k := by
  induction l1 with
  | nil => simp
  | cons p t ih =>
      rcases p with ⟨a, b⟩
      rw [List.cons_append]
      simp only [List.lookup] at h ⊢
      cases hk : (k == a) with
      | true => rw [hk] at h; simp at h
      | false => rw [hk] at h; exact ih h

theorem lookup_cons_self {α β : Type} [BEq α] [LawfulBEq α] (k : α) (v : β)
    (l : List (α × β)) : ((k, v) :: l).lookup k = some v := by
  simp [List.lookup]

theorem lookup_keys_lt {l : List (Nat × List Nat)} {n : Nat}
    (h : ∀ pr ∈ l, pr.1 < n) : l.lookup n = none := by
  induction l with
  | nil => rfl
  | cons p t ih =>
      rcases p with ⟨a, b⟩
      have ha : a < n := h (a, b) (by simp)
      have hk : (n == a) = false := by
        simp only [beq_eq_false_iff_ne]
        omega
      simp only [List.lookup, hk]
      exact ih (fun pr hpr => h pr (by simp [hpr]))

theorem mem_of_lookup_some {α β : Type} [BEq α] [LawfulBEq α] {l : List (α × β)} {k : α} {v : β}
    (h : l.lookup k = some v) : (k, v) ∈ l := by
  induction l with
  | nil => simp [List.lookup] at h
  | cons p t ih =>
      rcases p with ⟨a, b⟩
      simp only [List.lookup] at h
      cases hk : (k == a) with
      | true =>
          rw [hk] at h
          have hkv : b = v := by simpa using h
          have hka : k = a := eq_of_beq hk
          subst hkv; subst hka
          exact List.mem_cons_self _ _
      | false =>
          rw [hk] at h
          exact List.mem_cons_of_mem _ (ih h)

theorem lookup_updateAssoc_self {α β : Type} [BEq α] [LawfulBEq α] (k : α) (v : β)
    (l : List (α × β)) :
    (updateAssoc k v l).lookup k = (l.lookup k).map (fun _ => v) := by
  induction l with
  | nil => rfl
  | cons p t ih =>
      rcases p with ⟨a, b⟩
      simp only [updateAssoc, List.map] at ih ⊢
      cases hk : (a == k) with
      | true =>
          have hk2 : (k == a) = true := by
            have := eq_of_beq hk; subst this; simp
          simp [hk, hk2, List.lookup]
      | false =>
          have hk2 : (k == a) = false := by
            simp only [beq_eq_false_iff_ne] at hk ⊢
            exact fun h => hk h.symm
          simp only [hk, if_false, List.lookup, hk2]
          simpa [updateAssoc] using ih

theorem lookup_updateAssoc_ne {α β : Type} [BEq α] [LawfulBEq α] {k k1 : α} (v : β)
    (l : List (α × β)) (h : (k1 == k) = false) :
    (updateAssoc k v l).lookup k1 = l.lookup k1 := by
  induction l with
  | nil => rfl
  | cons p t ih =>
      rcases p with ⟨a, b⟩
      simp only [updateAssoc, List.map] at ih ⊢
      cases hk : (a == k) with
      | true =>
          have hka : a = k := eq_of_beq hk
          subst hka
          simp only [List.lookup, h, hk, if_true]
          simpa [updateAssoc] using ih
      | false =>
          simp only [List.lookup, hk, if_false]
          cases hk1 : (k1 == a) with
          | true => simp
          | false => simpa [updateAssoc] using ih

/-! Behaviour of the MemoryFile operations on canonical states. -/

theorem MemoryFile.OpenST_not_opened (mode : Nat) (s : MemoryFile.State)
    (hv : isModeValid mode = true) (ho : s.isOpened = false) :
    MemoryFile.OpenST mode s =
      (true,
       { data := if modeHasFlag mode truncateFlag then [] else s.data
         isOpened := true, seekPos := 0, mode := mode }) := by
  unfold MemoryFile.OpenST
  simp only [hv, MemoryFile.IsOpenedST, ho, Bool.false_and, Bool.not_true, MemoryFile.SizeST]
  cases ha : modeHasFlag mode appendFlag with
  | true =>
      cases ht : modeHasFlag mode truncateFlag with
      | true => simp [ha, ht, ho]
      | false => simp [ha, ht, ho]
  | false =>
      cases ht : modeHasFlag mode truncateFlag with
      | true => simp [ha, ht, ho]
      | false => simp [ha, ht, ho]

theorem MemoryFile.WriteST_at_zero (buffer d : List Nat) (m : Nat)
    (hw : modeHasFlag m writeFlag = true) :
    MemoryFile.WriteST buffer { data := d, isOpened := true, seekPos := 0, mode := m } =
      (buffer.length,
       { data := buffer ++ d.drop buffer.length
         isOpened := true, seekPos := buffer.length, mode := m }) := by
  unfold MemoryFile.WriteST
  simp only [MemoryFile.IsOpenedST, hw, Bool.not_true]
  cases buffer with
  | nil => simp
  | cons b bs =>
      simp only [List.length_cons, Nat.zero_add, List.take_zero, List.nil_append]
      by_cases hlen : bs.length + 1 > d.length
      · have h1 : (d ++ List.replicate (bs.length + 1 - d.length) 0).drop (bs.length + 1) = [] := by
          refine List.drop_eq_nil_of_le ?_
          simp
          omega
        have h2 : d.drop (bs.length + 1) = [] := by
          refine List.drop_eq_nil_of_le ?_
          omega
        simp [hlen, h1, h2]
      · simp [hlen]

theorem MemoryFile.ReadST_reads_back (B rest : List Nat) (m : Nat)
    (hr : modeHasFlag m readFlag = true) :
    (MemoryFile.ReadST B.length
      { data := B ++ rest, isOpened := true, seekPos := 0, mode := m }).1 = B := by
  unfold MemoryFile.ReadST
  simp only [MemoryFile.IsOpenedST, hr, Bool.not_true]
  cases B with
  | nil =>
      simp only [List.nil_append, List.length_nil]
      split <;> simp
  | cons b bs =>
      have hlen : ¬((b :: bs ++ rest).length ≤ 0) := by simp
      have hmin : min ((b :: bs ++ rest).length - 0) (b :: bs).length = (b :: bs).length := by
        simp
      simp only [hlen, if_false, List.length_cons, hmin]
      have hne : ((b :: bs).length == 0) = false := by simp
      simp only [List.length_cons] at hne
      simp only [hne, Bool.false_eq_true, if_false, List.drop_zero]
      have ht := List.take_left (b :: bs) rest
      simp only [List.length_cons] at ht
      simp [ht]

/-! Traversal lemmas for the virtual-filesystem visitor. -/

theorem VirtualFileSystem.visitRev_none {β ρ : Type} (cb : β → Bool → Option ρ × β) :
    ∀ l : List β,
      (∀ fs ∈ l, (cb fs false).1 = none) →
      (∀ fs ∈ l.getLast?.toList, (cb fs true).1 = none) →
      (VirtualFileSystem.visitRev cb l).1 = none := by
  intro l
  induction l with
  | nil => intro _ _; rfl
  | cons fs rest ih =>
      intro hAll hLast
      cases rest with
      | nil =>
          have h1 : (cb fs true).1 = none := hLast fs (by simp)
          rcases hcb : cb fs true with ⟨ro, fs1⟩
          rw [hcb] at h1
          simp only [] at h1
          subst h1
          simp [VirtualFileSystem.visitRev, hcb]
      | cons r rs =>
          have h1 : (cb fs false).1 = none := hAll fs (by simp)
          rcases hcb : cb fs false with ⟨ro, fs1⟩
          rw [hcb] at h1
          simp only [] at h1
          subst h1
          have h2 : (VirtualFileSystem.visitRev cb (r :: rs)).1 = none := by
            refine ih (fun g hg => hAll g (by simp [hg])) (fun g hg => hLast g ?_)
            rw [List.getLast?_cons_cons]
            exact hg
          simpa [VirtualFileSystem.visitRev, hcb] using h2

theorem VirtualFileSystem.visitBackends_none {β ρ : Type} (cb : β → Bool → Option ρ × β)
    (fss : List β)
    (hAll : ∀ fs ∈ fss, (cb fs false).1 = none)
    (hMain : ∀ fs ∈ fss.head?.toList, (cb fs true).1 = none) :
    (VirtualFileSystem.visitBackends cb fss).1 = none := by
  have h := VirtualFileSystem.visitRev_none cb fss.reverse
    (fun g hg => hAll g (by simpa using hg))
    (fun g hg => hMain g (by rwa [List.getLast?_reverse] at hg))
  rcases hv : VirtualFileSystem.visitRev cb fss.reverse with ⟨rr, rest1⟩
  rw [hv] at h
  simp only [] at h
  subst h
  simp [VirtualFileSystem.visitBackends, hv]

theorem VirtualFileSystem.visitAliases_openCallback_none {β γ : Type}
    (ops : VirtualFileSystem.FSOps β γ) (path : Path) (mode : Nat) :
    ∀ (aliases : List Path) (table : List (Path × List β)),
      aliases.Nodup →
      (∀ a ∈ aliases, strStartsWith path a = true →
        ∀ fs ∈ (table.lookup a).getD [],
          ops.isFileExists fs
            (fileInfoAbsolutePath (ops.basePath fs) (strDrop path (strLength a)) false)
            = false) →
      (∀ a ∈ aliases, strStartsWith path a = true →
        ∀ fs ∈ ((table.lookup a).getD []).head?.toList,
          (ops.openFile fs
            (fileInfoAbsolutePath (ops.basePath fs) (strDrop path (strLength a)) false)
            mode).1 = none) →
      (VirtualFileSystem.visitAliases (VirtualFileSystem.openCallback ops mode)
        path aliases table).1 = none := by
  intro aliases
  induction aliases with
  | nil => intro table _ _ _; rfl
  | cons a rest ih =>
      intro table hnd hex hmain
      have hndr : rest.Nodup := hnd.of_cons
      have hanotin : a ∉ rest := (List.nodup_cons.mp hnd).1
      cases hsw : strStartsWith path a with
      | false =>
          simp only [VirtualFileSystem.visitAliases, hsw, Bool.false_eq_true, if_false]
          exact ih table hndr
            (fun b hb => hex b (List.mem_cons_of_mem a hb))
            (fun b hb => hmain b (List.mem_cons_of_mem a hb))
      | true =>
          cases hemp : ((table.lookup a).getD []).isEmpty with
          | true =>
              simp only [VirtualFileSystem.visitAliases, hsw, if_true, hemp]
              exact ih table hndr
                (fun b hb => hex b (List.mem_cons_of_mem a hb))
                (fun b hb => hmain b (List.mem_cons_of_mem a hb))
          | false =>
              have hvb : (VirtualFileSystem.visitBackends
                  (fun fs isMain => VirtualFileSystem.openCallback ops mode fs
                    (strDrop path (strLength a)) isMain)
                  ((table.lookup a).getD [])).1 = none := by
                refine VirtualFileSystem.visitBackends_none _ _ ?_ ?_
                · intro fs hfs
                  have hx := hex a (List.mem_cons_self a rest) hsw fs hfs
                  simp [VirtualFileSystem.openCallback, hx]
                · intro fs hfs
                  have hx := hmain a (List.mem_cons_self a rest) hsw fs hfs
                  simp [VirtualFileSystem.openCallback, hx]
              rcases hv : VirtualFileSystem.visitBackends
                  (fun fs isMain => VirtualFileSystem.openCallback ops mode fs
                    (strDrop path (strLength a)) isMain)
                  ((table.lookup a).getD []) with ⟨ro, fss1⟩
              rw [hv] at hvb
              simp only [] at hvb
              subst hvb
              simp only [VirtualFileSystem.visitAliases, hsw, if_true, hemp, hv]
              refine ih (updateAssoc a fss1 table) hndr ?_ ?_
              · intro b hb hbs fs hfs
                have hba : (b == a) = false := by
                  simp only [beq_eq_false_iff_ne]
                  intro hba
                  exact hanotin (hba ▸ hb)
                rw [lookup_updateAssoc_ne fss1 table hba] at hfs
                exact hex b (List.mem_cons_of_mem a hb) hbs fs hfs
              · intro b hb hbs fs hfs
                have hba : (b == a) = false := by
                  simp only [beq_eq_false_iff_ne]
                  intro hba
                  exact hanotin (hba ▸ hb)
                rw [lookup_updateAssoc_ne fss1 table hba] at hfs
                exact hmain b (List.mem_cons_of_mem a hb) hbs fs hfs

/-! Behaviour of the MemoryFileSystem operations. -/

theorem MemoryFileSystem.EnsureEntry_existing {fs : MemoryFileSystem.State} {p : Path}
    {oid : Nat} (h : fs.files.lookup p = some oid) :
    MemoryFileSystem.EnsureEntry fs p = (oid, fs) := by
  unfold MemoryFileSystem.EnsureEntry
  rw [h]

theorem MemoryFileSystem.EnsureEntry_fresh {fs : MemoryFileSystem.State} {p : Path}
    (h : fs.files.lookup p = none) :
    MemoryFileSystem.EnsureEntry fs p =
      (fs.nextId,
       { fs with
           objects := fs.objects ++ [(fs.nextId, [])]
           files := fs.files ++ [(p, fs.nextId)]
           fileList := fs.fileList ++ [p]
           nextId := fs.nextId + 1 }) := by
  unfold MemoryFileSystem.EnsureEntry
  rw [h]

theorem MemoryFileSystem.OpenFileST_entry (fs : MemoryFileSystem.State) (p : Path)
    (mode oid : Nat) (d : List Nat)
    (hf : fs.files.lookup p = some oid)
    (ho : fs.objects.lookup oid = some d)
    (hv : isModeValid mode = true) :
    MemoryFileSystem.OpenFileST fs p mode =
      (some { objId := oid, path := p, isOpened := true, seekPos := 0, mode := mode },
       fs.withObj oid (if modeHasFlag mode truncateFlag then [] else d)) := by
  unfold MemoryFileSystem.OpenFileST
  rw [MemoryFileSystem.EnsureEntry_existing hf]
  simp only [ho, Option.getD_some]
  rw [MemoryFile.OpenST_not_opened mode _ hv rfl]
  simp [MemoryFileSystem.handleCommit, MemoryFileSystem.State.withObj]

theorem MemoryFileSystem.OpenFileST_fresh_eq {fs : MemoryFileSystem.State} {p : Path}
    (mode : Nat) (h : fs.files.lookup p = none) :
    MemoryFileSystem.OpenFileST fs p mode =
      MemoryFileSystem.OpenFileST (MemoryFileSystem.EnsureEntry fs p).2 p mode := by
  have hf : (MemoryFileSystem.EnsureEntry fs p).2.files.lookup p
      = some (MemoryFileSystem.EnsureEntry fs p).1 := by
    rw [MemoryFileSystem.EnsureEntry_fresh h]
    simp only []
    rw [lookup_append_none _ h]
    exact lookup_cons_self p fs.nextId []
  conv_rhs => rw [MemoryFileSystem.OpenFileST, MemoryFileSystem.EnsureEntry_existing hf]
  rw [MemoryFileSystem.OpenFileST]

theorem MemoryFileSystem.HandleWrite_run (fs : MemoryFileSystem.State) (oid : Nat) (p : Path)
    (m : Nat) (B d : List Nat)
    (ho : fs.objects.lookup oid = some d) (hw : modeHasFlag m writeFlag = true) :
    MemoryFileSystem.HandleWrite fs
      { objId := oid, path := p, isOpened := true, seekPos := 0, mode := m } B =
      (B.length,
       { objId := oid, path := p, isOpened := true, seekPos := B.length, mode := m },
       fs.withObj oid (B ++ d.drop B.length)) := by
  unfold MemoryFileSystem.HandleWrite MemoryFileSystem.handleView
  simp only [ho, Option.getD_some]
  rw [MemoryFile.WriteST_at_zero B d m hw]
  simp [MemoryFileSystem.handleCommit, MemoryFileSystem.State.withObj]

theorem MemoryFileSystem.HandleClose_run (fs : MemoryFileSystem.State) (oid : Nat) (p : Path)
    (m sp : Nat) (d : List Nat) (ho : fs.objects.lookup oid = some d) :
    MemoryFileSystem.HandleClose fs
      { objId := oid, path := p, isOpened := true, seekPos := sp, mode := m } =
      ({ objId := oid, path := p, isOpened := false, seekPos := 0, mode := readFlag },
       fs.withObj oid d) := by
  unfold MemoryFileSystem.HandleClose MemoryFileSystem.handleView
  simp only [ho, Option.getD_some]
  simp [MemoryFileSystem.handleCommit, MemoryFile.CloseST, MemoryFileSystem.State.withObj]

theorem MemoryFileSystem.State.withObj_lookup_self (fs : MemoryFileSystem.State) (oid : Nat)
    (d d0 : List Nat) (h : fs.objects.lookup oid = some d0) :
    (fs.withObj oid d).objects.lookup oid = some d := by
  simp [MemoryFileSystem.State.withObj, lookup_updateAssoc_self, h]

theorem MemoryFileSystem.HandleRead_run (fs : MemoryFileSystem.State) (oid : Nat) (p : Path)
    (m : Nat) (B rest : List Nat)
    (ho : fs.objects.lookup oid = some (B ++ rest)) (hm : modeHasFlag m readFlag = true) :
    (MemoryFileSystem.HandleRead fs
      { objId := oid, path := p, isOpened := true, seekPos := 0, mode := m } B.length).1 = B := by
  unfold MemoryFileSystem.HandleRead MemoryFileSystem.handleView
  simp only [ho, Option.getD_some]
  have hr := MemoryFile.ReadST_reads_back B rest m hm
  rcases he : MemoryFile.ReadST B.length
      { data := B ++ rest, isOpened := true, seekPos := 0, mode := m } with ⟨bytes, st⟩
  rw [he] at hr
  simp only [] at hr
  subst hr
  simp

theorem MemoryFileSystem.RoundTrip_entry (fs : MemoryFileSystem.State) (p : Path)
    (B : List Nat) (mw oid : Nat) (d : List Nat)
    (hf : fs.files.lookup p = some oid)
    (ho : fs.objects.lookup oid = some d)
    (hv : isModeValid mw = true) (hw : modeHasFlag mw writeFlag = true) :
    RoundTrip fs p B mw = some B := by
  have hopen := MemoryFileSystem.OpenFileST_entry fs p mw oid d hf ho hv
  generalize hD : (if modeHasFlag mw truncateFlag then ([] : List Nat) else d) = d1 at hopen
  have ho2 := MemoryFileSystem.State.withObj_lookup_self fs oid d1 d ho
  have hwrite := MemoryFileSystem.HandleWrite_run (fs.withObj oid d1) oid p mw B d1 ho2 hw
  have ho3 := MemoryFileSystem.State.withObj_lookup_self (fs.withObj oid d1) oid
    (B ++ d1.drop B.length) d1 ho2
  have hclose := MemoryFileSystem.HandleClose_run
    ((fs.withObj oid d1).withObj oid (B ++ d1.drop B.length)) oid p mw B.length
    (B ++ d1.drop B.length) ho3
  have ho4 := MemoryFileSystem.State.withObj_lookup_self
    ((fs.withObj oid d1).withObj oid (B ++ d1.drop B.length)) oid
    (B ++ d1.drop B.length) (B ++ d1.drop B.length) ho3
  have hopen2 := MemoryFileSystem.OpenFileST_entry
    (((fs.withObj oid d1).withObj oid (B ++ d1.drop B.length)).withObj oid
      (B ++ d1.drop B.length))
    p readFlag oid (B ++ d1.drop B.length) hf ho4 (by decide)
  have hmode1 : modeHasFlag readFlag truncateFlag = false := by decide
  rw [hmode1] at hopen2
  simp only [Bool.false_eq_true, if_false] at hopen2
  have ho5 := MemoryFileSystem.State.withObj_lookup_self
    ((((fs.withObj oid d1).withObj oid (B ++ d1.drop B.length)).withObj oid
      (B ++ d1.drop B.length)))
    oid (B ++ d1.drop B.length) (B ++ d1.drop B.length) ho4
  have hread := MemoryFileSystem.HandleRead_run
    (((((fs.withObj oid d1).withObj oid (B ++ d1.drop B.length)).withObj oid
      (B ++ d1.drop B.length))).withObj oid (B ++ d1.drop B.length))
    oid p readFlag B (d1.drop B.length) ho5 (by decide)
  simp only [RoundTrip, hopen, hwrite, hclose, hopen2, hread]

/-! The claims. -/

/-- C1 (corrected): when no backend mounted at an alias prefixing the path
reports the file as existing, `VirtualFileSystem::OpenFile` still invokes
`OpenFile` on the main (front-of-list) backend of every matching alias —
regardless of the requested mode, not only when write is requested — and
returns null exactly when each of those calls returns null. -/
theorem C1_open_null_iff_mains_fail {β γ : Type}
    (ops : Vfspp.VirtualFileSystem.FSOps β γ) (vfs : Vfspp.VirtualFileSystem.State β)
    (path : Path) (mode : Nat)
    (hnd : vfs.sortedAlias.Nodup)
    (hex : ∀ a ∈ vfs.sortedAlias, strStartsWith path a = true →
      ∀ fs ∈ (vfs.table.lookup a).getD [],
        ops.isFileExists fs
          (fileInfoAbsolutePath (ops.basePath fs) (strDrop path (strLength a)) false)
          = false)
    (hmain : ∀ a ∈ vfs.sortedAlias, strStartsWith path a = true →
      ∀ fs ∈ ((vfs.table.lookup a).getD []).head?.toList,
        (ops.openFile fs
          (fileInfoAbsolutePath (ops.basePath fs) (strDrop path (strLength a)) false)
          mode).1 = none) :
    (Vfspp.VirtualFileSystem.OpenFile ops vfs path mode).1 = none := by
  have h := Vfspp.VirtualFileSystem.visitAliases_openCallback_none ops path mode
    vfs.sortedAlias vfs.table hnd hex hmain
  rcases hv : Vfspp.VirtualFileSystem.visitAliases
      (Vfspp.VirtualFileSystem.openCallback ops mode) path vfs.sortedAlias vfs.table
    with ⟨ro, t1⟩
  rw [hv] at h
  simp only [] at h
  subst h
  simp [Vfspp.VirtualFileSystem.OpenFile, hv]

/-- C1 counterexample: a single memory backend mounted at `"/"` (hence the
main backend), a path `"/p"` it does not contain, and the pure `Read` mode:
no backend reports the file as existing and write is not requested, yet
`VirtualFileSystem::OpenFile` returns a non-null handle (the memory backend
creates the file), where the claim says it must return null. -/
theorem C1_read_mode_fallback_counterexample :
    modeHasFlag readFlag writeFlag = false
  ∧ MemoryFileSystem.IsFileExistsST emptyMemFS pathP = false
  ∧ (Vfspp.VirtualFileSystem.OpenFile memOps vfsMemOnly pathP readFlag).1.isSome = true := by
  decide

/-- C1 witness: with an empty zip backend as the main backend its `OpenFile`
on a missing entry returns null, so the whole resolution returns null. -/
theorem C1_open_null_iff_mains_fail_witness :
    (Vfspp.VirtualFileSystem.OpenFile zipOps vfsZipOnly pathP readFlag).1 = none :=
  C1_open_null_iff_mains_fail zipOps vfsZipOnly pathP readFlag
    (by decide) (by decide) (by decide)

/-- C2 (code bug): `MemoryFileSystem::CopyFileST` on an existing source
`"/m/a"` holding `"hello"` and a fresh destination `"/m/b"` returns true,
but the destination is inserted with an **empty** object — the line cloning
the source bytes is commented out in the source (`// TODO: fix copy`) — so
a subsequent read of `"/m/b"` does not yield the bytes of the source as the
claim requires. -/
theorem C2_copy_inserts_empty_object :
    (MemoryFileSystem.CopyFileST memFSHello pathMA pathMB false).1 = true
  ∧ (((MemoryFileSystem.CopyFileST memFSHello pathMA pathMB false).2.files.lookup pathMB).bind
      (fun oid =>
        (MemoryFileSystem.CopyFileST memFSHello pathMA pathMB false).2.objects.lookup oid))
      = some []
  ∧ ((memFSHello.files.lookup pathMA).bind
      (fun oid => memFSHello.objects.lookup oid)) = some helloBytes
  ∧ helloBytes ≠ [] := by
  decide

/-- C3 (confirmed): on the memory backend, for every well-formed filesystem
state, path `p`, byte string `B` and valid writable mode: opening `p` for
writing, writing `B`, closing the handle, re-opening `p` for reading and
reading `B.length` bytes back yields exactly `B` — the bytes survive the
close/re-open through the shared `MemoryFileObject`. -/
theorem C3_write_close_reopen_read_round_trip (fs : MemoryFileSystem.State) (p : Path)
    (B : List Nat) (mw : Nat)
    (hwf : MemoryFileSystem.WF fs)
    (hv : isModeValid mw = true) (hw : modeHasFlag mw writeFlag = true) :
    RoundTrip fs p B mw = some B := by
  cases h : fs.files.lookup p with
  | some oid =>
      have hmem := mem_of_lookup_some h
      have hs := hwf.2 (p, oid) hmem
      rcases Option.isSome_iff_exists.mp hs with ⟨d, hd⟩
      exact MemoryFileSystem.RoundTrip_entry fs p B mw oid d h hd hv hw
  | none =>
      have heq : RoundTrip fs p B mw
          = RoundTrip (MemoryFileSystem.EnsureEntry fs p).2 p B mw := by
        simp only [RoundTrip]
        rw [MemoryFileSystem.OpenFileST_fresh_eq mw h]
      rw [heq, MemoryFileSystem.EnsureEntry_fresh h]
      refine MemoryFileSystem.RoundTrip_entry _ p B mw fs.nextId [] ?_ ?_ hv hw
      · simp only []
        rw [lookup_append_none _ h]
        exact lookup_cons_self p fs.nextId []
      · simp only []
        rw [lookup_append_none _ (lookup_keys_lt hwf.1)]
        exact lookup_cons_self fs.nextId [] []

/-- C3 witness: the round trip of `"hello"` through `"/m/a"` on the empty
memory filesystem with the `Write` mode. -/
theorem C3_round_trip_witness :
    RoundTrip emptyMemFS pathMA helloBytes writeFlag = some helloBytes :=
  C3_write_close_reopen_read_round_trip emptyMemFS pathMA helloBytes writeFlag
    (by decide) (by decide) (by decide)

/-- C4 (confirmed): on a `ZipFileSystem`, `CreateFile`, `RemoveFile`,
`CopyFile` and `RenameFile` return false with the state (files table and
file list) unchanged; `ZipFile::Write` returns 0 with the handle unchanged;
and `ZipFile::Open` with any mode containing `Write` returns false. -/
theorem C4_zip_backend_read_only :
    (∀ (fs : ZipFileSystem.State) (p : Path), ZipFileSystem.CreateFile fs p = (false, fs))
  ∧ (∀ (fs : ZipFileSystem.State) (p : Path), ZipFileSystem.RemoveFile fs p = (false, fs))
  ∧ (∀ (fs : ZipFileSystem.State) (s d : Path) (ow : Bool),
      ZipFileSystem.CopyFile fs s d ow = (false, fs))
  ∧ (∀ (fs : ZipFileSystem.State) (s d : Path), ZipFileSystem.RenameFile fs s d = (false, fs))
  ∧ (∀ (h : ZipFile.State) (buffer : List Nat), ZipFile.WriteST buffer h = (0, h))
  ∧ (∀ (h : ZipFile.State) (m : Nat), modeHasFlag m writeFlag = true →
      (ZipFile.OpenST m h).1 = false) := by
  refine ⟨fun _ _ => rfl, fun _ _ => rfl, fun _ _ _ _ => rfl, fun _ _ _ => rfl,
    fun _ _ => rfl, ?_⟩
  intro h m hm
  cases hv : isModeValid m with
  | false => simp [ZipFile.OpenST, hv]
  | true => simp [ZipFile.OpenST, hv, ZipFile.IsReadOnlyST, hm]

/-- C4 witness: opening a zip handle in `Write` mode fails. -/
theorem C4_zip_backend_read_only_witness :
    modeHasFlag writeFlag writeFlag = true ∧ (ZipFile.OpenST writeFlag zipHandleLive).1 = false :=
  ⟨by decide, C4_zip_backend_read_only.2.2.2.2.2 zipHandleLive writeFlag (by decide)⟩

/-- C5 (code bug): `NativeFile::WriteST` on a freshly opened writable
handle writes the whole buffer to the stream but returns
`m_Stream.gcount()` — the byte count of the last unformatted *input*
operation, 0 on a fresh stream — instead of the number of bytes written
(5 here), contradicting the requirement of the spec and its own design note. -/
theorem C5_native_write_returns_gcount :
    (NativeFile.WriteST [1, 2, 3, 4, 5] freshWritableNative).1 = 0
  ∧ (NativeFile.WriteST [1, 2, 3, 4, 5] freshWritableNative).2.stream.content
      = [1, 2, 3, 4, 5]
  ∧ [1, 2, 3, 4, 5].length = 5 := by
  decide

/-- C6 (code bug): opening a fresh `MemoryFile` over a 5-byte object with
mode `Read|Write|Append` (= 7) succeeds but leaves the seek position at 0
rather than at the end (5): `OpenST` consults `SizeST` before setting
`m_IsOpened`, so the size reads as 0; and even on a handle that was already
opened (re-open with a different mode) the append position is `size - 1`
(4), not `size`. The `Truncate` half of the claim does hold (mode 11 resets
the data). -/
theorem C6_append_does_not_seek_to_end :
    isModeValid 7 = true ∧ modeHasFlag 7 appendFlag = true
  ∧ (MemoryFile.OpenST 7 memFile5).1 = true
  ∧ MemoryFile.TellST (MemoryFile.OpenST 7 memFile5).2 = 0
  ∧ MemoryFile.SizeST (MemoryFile.OpenST 7 memFile5).2 = 5
  ∧ (MemoryFile.OpenST 7 { memFile5 with isOpened := true }).2.seekPos = 4
  ∧ (MemoryFile.OpenST 11 memFile5).2.data = [] := by
  decide

/-- C7 (corrected): for opened memory and zip handles, `Seek(n, Begin)`
then `Tell` gives `min n size`, `Seek(n, End)` gives `size - n` (truncated
at 0), and `Seek(n, Cur)` gives `min ((pos + n) % 2^64) size` — the C++
`m_SeekPos += offset` wraps at 2^64 before the clamp, instead of the
unbounded `pos + n`; `Seek` on a closed handle returns 0. -/
theorem C7_seek_clamp_semantics :
    (∀ (s : MemoryFile.State) (n : Nat), s.isOpened = true →
      MemoryFile.TellST (MemoryFile.SeekST n Origin.Begin s).2 = min n s.data.length)
  ∧ (∀ (s : MemoryFile.State) (n : Nat), s.isOpened = true →
      MemoryFile.TellST (MemoryFile.SeekST n Origin.End s).2 = s.data.length - n)
  ∧ (∀ (s : MemoryFile.State) (n : Nat), s.isOpened = true →
      MemoryFile.TellST (MemoryFile.SeekST n Origin.Set s).2
        = min ((s.seekPos + n) % 2 ^ 64) s.data.length)
  ∧ (∀ (s : MemoryFile.State) (n : Nat) (o : Origin), s.isOpened = false →
      (MemoryFile.SeekST n o s).1 = 0)
  ∧ (∀ (h : ZipFile.State) (n : Nat), h.archiveAlive = true →
      ZipFile.TellST (ZipFile.SeekST n Origin.Begin h).2 = min n h.size)
  ∧ (∀ (h : ZipFile.State) (n : Nat), h.archiveAlive = true →
      ZipFile.TellST (ZipFile.SeekST n Origin.End h).2 = h.size - n)
  ∧ (∀ (h : ZipFile.State) (n : Nat), h.archiveAlive = true →
      ZipFile.TellST (ZipFile.SeekST n Origin.Set h).2
        = min ((h.seekPos + n) % 2 ^ 64) h.size)
  ∧ (∀ (h : ZipFile.State) (n : Nat) (o : Origin), h.archiveAlive = false →
      (ZipFile.SeekST n o h).1 = 0) := by
  refine ⟨?_, ?_, ?_, ?_, ?_, ?_, ?_, ?_⟩
  · intro s n hop
    simp [MemoryFile.SeekST, MemoryFile.IsOpenedST, MemoryFile.SizeST, MemoryFile.TellST, hop]
  · intro s n hop
    simp only [MemoryFile.SeekST, MemoryFile.IsOpenedST, MemoryFile.SizeST, MemoryFile.TellST,
      hop, Bool.not_true, Bool.false_eq_true, if_false, if_true]
    by_cases hn : n < s.data.length
    · simp only [hn, if_true]
      omega
    · simp only [hn, if_false]
      omega
  · intro s n hop
    simp [MemoryFile.SeekST, MemoryFile.IsOpenedST, MemoryFile.SizeST, MemoryFile.TellST, hop]
  · intro s n o hop
    simp [MemoryFile.SeekST, MemoryFile.IsOpenedST, hop]
  · intro h n hop
    simp [ZipFile.SeekST, ZipFile.IsOpenedST, ZipFile.SizeST, ZipFile.TellST, hop]
  · intro h n hop
    simp only [ZipFile.SeekST, ZipFile.IsOpenedST, ZipFile.SizeST, ZipFile.TellST,
      hop, Bool.not_true, Bool.false_eq_true, if_false, if_true]
    by_cases hn : n ≤ h.size
    · simp only [hn, if_true]
      omega
    · simp only [hn, if_false]
      omega
  · intro h n hop
    simp [ZipFile.SeekST, ZipFile.IsOpenedST, ZipFile.SizeST, ZipFile.TellST, hop]
  · intro h n o hop
    simp [ZipFile.SeekST, ZipFile.IsOpenedST, hop]

/-- C7 counterexample: an opened 5-byte memory handle at position 1 and
`Seek(2^64 - 1, Cur)`: the stored position wraps to 0 and clamps to 0,
while the `min (pos + n) size` of the claim would give 5. -/
theorem C7_cur_seek_wraps_counterexample :
    MemoryFile.TellST (MemoryFile.SeekST (2 ^ 64 - 1) Origin.Set memFile5Open).2 = 0
  ∧ min (memFile5Open.seekPos + (2 ^ 64 - 1)) memFile5Open.data.length = 5
  ∧ (0 : Nat) ≠ 5 := by
  decide

/-- C7 witness: concrete seeks on an opened memory handle, an opened zip
handle, and a dead zip handle. -/
theorem C7_seek_clamp_semantics_witness :
    MemoryFile.TellST (MemoryFile.SeekST 7 Origin.Begin memFile5Open).2
      = min 7 memFile5Open.data.length
  ∧ ZipFile.TellST (ZipFile.SeekST 2 Origin.End zipHandleLive).2 = zipHandleLive.size - 2
  ∧ (ZipFile.SeekST 3 Origin.Begin zipHandleDead).1 = 0 :=
  ⟨C7_seek_clamp_semantics.1 memFile5Open 7 rfl,
   C7_seek_clamp_semantics.2.2.2.2.2.1 zipHandleLive 2 rfl,
   C7_seek_clamp_semantics.2.2.2.2.2.2.2 zipHandleDead 3 Origin.Begin rfl⟩

/-- C8 (corrected): closing twice equals closing once for memory, native
and zip handles, and after `Close` reads and writes return 0 on memory and
native handles; `Close` on a zip handle however only rewinds the position —
`IsOpened` tracks liveness of the archive — so after `Close` a zip `Write`
still returns 0 but a zip `Read` returns 0 only once the archive has been
released. -/
theorem C8_close_idempotent_and_dead_ops :
    (∀ s : MemoryFile.State, MemoryFile.CloseST (MemoryFile.CloseST s) = MemoryFile.CloseST s)
  ∧ (∀ (s : MemoryFile.State) (n : Nat), (MemoryFile.ReadST n (MemoryFile.CloseST s)).1 = [])
  ∧ (∀ (s : MemoryFile.State) (b : List Nat),
      (MemoryFile.WriteST b (MemoryFile.CloseST s)).1 = 0)
  ∧ (∀ s : NativeFile.State, NativeFile.CloseST (NativeFile.CloseST s) = NativeFile.CloseST s)
  ∧ (∀ (s : NativeFile.State) (n : Nat), (NativeFile.ReadST n (NativeFile.CloseST s)).1 = [])
  ∧ (∀ (s : NativeFile.State) (b : List Nat),
      (NativeFile.WriteST b (NativeFile.CloseST s)).1 = 0)
  ∧ (∀ h : ZipFile.State, ZipFile.CloseST (ZipFile.CloseST h) = ZipFile.CloseST h)
  ∧ (∀ (h : ZipFile.State) (b : List Nat), (ZipFile.WriteST b h).1 = 0)
  ∧ (∀ (h : ZipFile.State) (stream : List Nat) (n : Nat), h.archiveAlive = false →
      (ZipFile.ReadST stream n (ZipFile.CloseST h)).1 = []) := by
  refine ⟨?_, ?_, ?_, ?_, ?_, ?_, ?_, ?_, ?_⟩
  · intro s
    rfl
  · intro s n
    simp [MemoryFile.ReadST, MemoryFile.CloseST, MemoryFile.IsOpenedST]
  · intro s b
    simp [MemoryFile.WriteST, MemoryFile.CloseST, MemoryFile.IsOpenedST]
  · intro s
    cases hio : s.stream.isOpen with
    | true => simp [NativeFile.CloseST, NativeFile.IsOpenedST, hio]
    | false => simp [NativeFile.CloseST, NativeFile.IsOpenedST, hio]
  · intro s n
    cases hio : s.stream.isOpen with
    | true => simp [NativeFile.ReadST, NativeFile.CloseST, NativeFile.IsOpenedST, hio]
    | false => simp [NativeFile.ReadST, NativeFile.CloseST, NativeFile.IsOpenedST, hio]
  · intro s b
    cases hio : s.stream.isOpen with
    | true => simp [NativeFile.WriteST, NativeFile.CloseST, NativeFile.IsOpenedST, hio]
    | false => simp [NativeFile.WriteST, NativeFile.CloseST, NativeFile.IsOpenedST, hio]
  · intro h
    rfl
  · intro h b
    rfl
  · intro h stream n hdead
    simp [ZipFile.ReadST, ZipFile.CloseST, ZipFile.IsOpenedST, hdead]

/-- C8 counterexample: a zip handle over a 5-byte entry with a live
archive: after `Close`, a 3-byte `Read` still returns 3 bytes (the first bytes of the entry), where the claim says any read after `Close` returns 0. -/
theorem C8_zip_read_after_close_counterexample :
    (ZipFile.ReadST zipStream5 3 (ZipFile.CloseST zipHandleLive)).1.length = 3
  ∧ (3 : Nat) ≠ 0 := by
  decide

/-- C8 witness: a read on a zip handle whose archive has been released
returns nothing after `Close`. -/
theorem C8_close_idempotent_witness :
    (ZipFile.ReadST zipStream5 3 (ZipFile.CloseST zipHandleDead)).1 = [] :=
  C8_close_idempotent_and_dead_ops.2.2.2.2.2.2.2.2 zipHandleDead zipStream5 3 rfl

/-- C9 (code bug): `ZipFileSystem::BuildFilelist` records **every** entry
whose stat succeeds — there is no test on the entry name — so a central
directory holding only the directory marker `"dir/"` produces a files
table and file list containing `"/dir/"`, where the claim (and the spec,
twice) says entries ending in `/` are skipped. -/
theorem C9_directory_markers_recorded :
    strEndsWith ['d', 'i', 'r', '/'] ['/'] = true
  ∧ (ZipFileSystem.BuildFilelist dirOnlyCentralDir).1 = [['/', 'd', 'i', 'r', '/']]
  ∧ (ZipFileSystem.BuildFilelist dirOnlyCentralDir).2.lookup ['/', 'd', 'i', 'r', '/']
      = some { entryId := 0, size := 0 } := by
  decide

/-- C10 (confirmed): `MemoryFileSystem::OpenFileST` on a path with no entry
inserts a fresh empty object into the files table regardless of the mode —
including pure `Read` — and for any valid mode returns a non-null handle;
afterwards `IsFileExists` reports the path as existing. -/
theorem C10_open_creates_missing_entry (fs : MemoryFileSystem.State) (p : Path) (mode : Nat)
    (hwf : MemoryFileSystem.WF fs)
    (hmiss : fs.files.lookup p = none) (hv : isModeValid mode = true) :
    ((MemoryFileSystem.OpenFileST fs p mode).1).isSome = true
  ∧ (MemoryFileSystem.OpenFileST fs p mode).2.files.lookup p = some fs.nextId
  ∧ (MemoryFileSystem.OpenFileST fs p mode).2.objects.lookup fs.nextId = some []
  ∧ MemoryFileSystem.IsFileExistsST (MemoryFileSystem.OpenFileST fs p mode).2 p = true := by
  have heq := MemoryFileSystem.OpenFileST_fresh_eq mode hmiss
  have hfE : (MemoryFileSystem.EnsureEntry fs p).2.files.lookup p = some fs.nextId := by
    rw [MemoryFileSystem.EnsureEntry_fresh hmiss]
    simp only []
    rw [lookup_append_none _ hmiss]
    exact lookup_cons_self p fs.nextId []
  have hoE : (MemoryFileSystem.EnsureEntry fs p).2.objects.lookup fs.nextId = some [] := by
    rw [MemoryFileSystem.EnsureEntry_fresh hmiss]
    simp only []
    rw [lookup_append_none _ (lookup_keys_lt hwf.1)]
    exact lookup_cons_self fs.nextId [] []
  have hopen := MemoryFileSystem.OpenFileST_entry (MemoryFileSystem.EnsureEntry fs p).2
    p mode fs.nextId [] hfE hoE hv
  rw [heq, hopen]
  refine ⟨rfl, ?_, ?_, ?_⟩
  · exact hfE
  · have hl := MemoryFileSystem.State.withObj_lookup_self
      (MemoryFileSystem.EnsureEntry fs p).2 fs.nextId
      (if modeHasFlag mode truncateFlag then [] else []) [] hoE
    simpa [ite_self] using hl
  · simp only [MemoryFileSystem.IsFileExistsST, MemoryFileSystem.State.withObj]
    rw [hfE]
    rfl

/-- C10 witness: opening the missing `"/p"` on the empty memory filesystem
in pure `Read` mode. -/
theorem C10_open_creates_missing_entry_witness :
    ((MemoryFileSystem.OpenFileST emptyMemFS pathP readFlag).1).isSome = true
  ∧ (MemoryFileSystem.OpenFileST emptyMemFS pathP readFlag).2.files.lookup pathP
      = some emptyMemFS.nextId
  ∧ (MemoryFileSystem.OpenFileST emptyMemFS pathP readFlag).2.objects.lookup
      emptyMemFS.nextId = some []
  ∧ MemoryFileSystem.IsFileExistsST (MemoryFileSystem.OpenFileST emptyMemFS pathP readFlag).2
      pathP = true :=
  C10_open_creates_missing_entry emptyMemFS pathP readFlag (by decide) (by decide) (by decide)

end Vfspp
